import Mathlib

/-!
Verification development for the dnsmasq_exporter collector
(package `collector`, file modelled here as `DnsmasqExporter`).

The Go source translated here:
  * `queryDnsmasq`, `question`, `Collector.Collect` — the statistics
    subtask: seven CHAOS/TXT exchanges with the dnsmasq daemon, decoded
    answer by answer into Prometheus gauge samples;
  * `parseLease`, `readLeaseFile` — the DHCP lease-file subtask;
  * the metric descriptor tables `floatMetrics`, `serversMetrics`,
    `leaseMetrics`, `leases`.

External effects are made explicit: the DNS client is an oracle mapping
each queried statistics name to a transport result, the file system is a
`FileResult` value, the Prometheus channel becomes the list of metrics
emitted in order, and `log.Printf` output becomes a returned list of
diagnostics.  Machine floats from `strconv.ParseFloat` are modelled
exactly as rationals on the decimal fragment of the syntax.
-/

deriving instance DecidableEq for Except

namespace DnsmasqExporter

/-- Error values: Go `error` is modelled by its message string. -/
abbrev Err := String

/-! ### Models of the Go standard library helpers used by the collector -/

/-- Model of `unicode.IsSpace` restricted to the ASCII whitespace
characters (the only ones relevant to the daemon replies and lease
files; the Unicode-only space code points are not modelled). -/
def isGoSpace (c : Char) : Bool :=
  c = ' ' || c = '\t' || c = '\n' || c = '\u000b' || c = '\u000c' || c = '\r'

/-- Accumulator pass for `goFields`: `acc` holds the characters of the
word currently being read, in order. -/
def goFieldsAux : List Char → List Char → List String
  | [], acc => if acc = [] then [] else [String.mk acc]
  | c :: rest, acc =>
    if isGoSpace c then
      if acc = [] then goFieldsAux rest []
      else String.mk acc :: goFieldsAux rest []
    else goFieldsAux rest (acc ++ [c])

/-- Model of Go `strings.Fields`: split around runs of whitespace,
dropping empty substrings. -/
def goFields (s : String) : List String :=
  goFieldsAux s.toList []

/-- Numeric value of a list of decimal digit characters. -/
def digitsToNat (cs : List Char) : Nat :=
  cs.foldl (fun n c => n * 10 + (c.toNat - 48)) 0

/-- Model of Go `strconv.ParseUint(s, 10, 64)`: decimal digits only,
no sign, non-empty, and the value must fit in 64 bits (Go reports
`ErrRange` otherwise, which the caller treats as failure). -/
def goParseUint64 (s : String) : Option Nat :=
  if s = "" then none
  else if s.toList.all Char.isDigit then
    let n := digitsToNat s.toList
    if n < 2 ^ 64 then some n else none
  else none

/-- Split a character list at the first exponent marker `e` or `E`:
returns the mantissa characters and, when a marker is present, the
characters after it. -/
def splitExp (cs : List Char) : List Char × Option (List Char) :=
  match cs.span (fun c => c ≠ 'e' && c ≠ 'E') with
  | (mant, []) => (mant, none)
  | (mant, _ :: rest) => (mant, some rest)

/-- Strip an optional leading sign, returning `-1` or `1` and the rest. -/
def stripSign (cs : List Char) : Int × List Char :=
  match cs with
  | '+' :: rest => (1, rest)
  | '-' :: rest => (-1, rest)
  | rest => (1, rest)

/-- Parse mantissa characters `digits [ . digits ]` (digits required on
at least one side of the dot) into the digit value and the length of the
fractional part. -/
def parseMantissa (cs : List Char) : Option (Nat × Nat) :=
  match cs.span (fun c => c ≠ '.') with
  | (intPart, []) =>
    if intPart ≠ [] && intPart.all Char.isDigit then
      some (digitsToNat intPart, 0)
    else none
  | (intPart, _ :: fracPart) =>
    if (intPart ++ fracPart) ≠ [] && intPart.all Char.isDigit &&
        fracPart.all Char.isDigit then
      some (digitsToNat (intPart ++ fracPart), fracPart.length)
    else none

/-- Parse exponent characters `[ sign ] digits` into an integer. -/
def parseExponent (cs : List Char) : Option Int :=
  let (sgn, ds) := stripSign cs
  if ds ≠ [] && ds.all Char.isDigit then some (sgn * (digitsToNat ds : Int))
  else none

/-- The exact rational `sgn * digits * 10 ^ (e - fracLen)`, built with
integer arithmetic and one `mkRat`. -/
def decToRat (sgn : Int) (digits : Nat) (fracLen : Nat) (e : Int) : ℚ :=
  let shift : Int := e - (fracLen : Int)
  if 0 ≤ shift then
    mkRat (sgn * ((digits * 10 ^ shift.toNat : Nat) : Int)) 1
  else
    mkRat (sgn * (digits : Int)) (10 ^ (-shift).toNat)

/-- Model of Go `strconv.ParseFloat(s, 64)` on the finite decimal
fragment `[sign] digits [. digits] [(e|E) [sign] digits]`, with the
exact rational value (binary rounding, hexadecimal literals, digit-
separating underscores, `Inf`, `NaN` and range overflow are outside the
model; none of them occur in daemon statistics). -/
def goParseFloat (s : String) : Option ℚ :=
  let (sgn, cs) := stripSign s.toList
  let (mant, ex) := splitExp cs
  match parseMantissa mant with
  | none => none
  | some m =>
    match ex with
    | none => some (decToRat sgn m.1 m.2 0)
    | some ecs =>
      match parseExponent ecs with
      | none => none
      | some e => some (decToRat sgn m.1 m.2 e)

/-! ### DNS wire model (`github.com/miekg/dns` fragment used) -/

/-- `dns.TypeTXT`. -/
def TypeTXT : Nat := 16

/-- `dns.ClassCHAOS`. -/
def ClassCHAOS : Nat := 3

/-- `dns.Question`. -/
structure Question where
  name : String
  qtype : Nat
  qclass : Nat
deriving DecidableEq, Repr

/-- `question` from the collector: a TXT question in class CHAOS. -/
def question (name : String) : Question :=
  { name := name, qtype := TypeTXT, qclass := ClassCHAOS }

/-- The header fields of `dns.MsgHdr` that `Collect` sets. -/
structure MsgHdr where
  id : Nat
  recursionDesired : Bool
deriving DecidableEq, Repr

/-- The fields of `dns.Msg` that `queryDnsmasq` fills in. -/
structure Msg where
  hdr : MsgHdr
  question : List Question
deriving DecidableEq, Repr

/-- An answer resource record: the decoder only inspects whether the
record is a `*dns.TXT` and, if so, its header name and text strings;
every other record kind is a single opaque constructor. -/
inductive RR where
  | txt (name : String) (strs : List String)
  | other
deriving DecidableEq, Repr

/-- The fields of a reply `dns.Msg` the decoder reads. -/
structure DnsReply where
  answer : List RR
deriving DecidableEq, Repr

/-! ### Prometheus model (fragment used) -/

/-- `prometheus.ValueType`. -/
inductive ValueType where
  | counterValue
  | gaugeValue
  | untypedValue
deriving DecidableEq, Repr

/-- `prometheus.Desc`: fully-qualified name, help, variable labels. -/
structure Desc where
  fqName : String
  help : String
  variableLabels : List String
deriving DecidableEq, Repr

/-- A metric sample as produced by `prometheus.MustNewConstMetric` and
sent on the channel: descriptor, value type, value, label values. -/
structure Metric where
  desc : Desc
  vtype : ValueType
  value : ℚ
  labelValues : List String
deriving DecidableEq, Repr

/-- The `floatMetrics` descriptor table, keyed by the stats DNS record
name (Go: `map[string]*prometheus.Desc` with six entries). -/
def floatMetrics (name : String) : Option Desc :=
  if name = "cachesize.bind." then
    some { fqName := "dnsmasq_cachesize",
           help := "configured size of the DNS cache",
           variableLabels := [] }
  else if name = "insertions.bind." then
    some { fqName := "dnsmasq_insertions",
           help := "DNS cache insertions",
           variableLabels := [] }
  else if name = "evictions.bind." then
    some { fqName := "dnsmasq_evictions",
           help := "DNS cache exictions: numbers of entries which replaced an unexpired cache entry",
           variableLabels := [] }
  else if name = "misses.bind." then
    some { fqName := "dnsmasq_misses",
           help := "DNS cache misses: queries which had to be forwarded",
           variableLabels := [] }
  else if name = "hits.bind." then
    some { fqName := "dnsmasq_hits",
           help := "DNS queries answered locally (cache hits)",
           variableLabels := [] }
  else if name = "auth.bind." then
    some { fqName := "dnsmasq_auth",
           help := "DNS queries for authoritative zones",
           variableLabels := [] }
  else none

/-- `serversMetrics["queries"]`. -/
def serversMetricsQueries : Desc :=
  { fqName := "dnsmasq_servers_queries",
    help := "DNS queries on upstream server",
    variableLabels := ["server"] }

/-- `serversMetrics["queries_failed"]`. -/
def serversMetricsQueriesFailed : Desc :=
  { fqName := "dnsmasq_servers_queries_failed",
    help := "DNS queries failed on upstream server",
    variableLabels := ["server"] }

/-- `leaseMetrics`: the per-lease expiry descriptor. -/
def leaseMetrics : Desc :=
  { fqName := "dnsmasq_lease_expiry",
    help := "Expiry time for active DHCP leases",
    variableLabels := ["mac_addr", "ip_addr", "computer_name", "client_id"] }

/-- `leases`: the lease-count descriptor. -/
def leases : Desc :=
  { fqName := "dnsmasq_leases",
    help := "Number of DHCP leases handed out",
    variableLabels := [] }

/-! ### The statistics decoder (`queryDnsmasq`) -/

/-- The `servers.bind.` case of the answer switch in `queryDnsmasq`:
each text string must hold exactly three whitespace-separated fields
(server address, queries, failed queries); each well-formed string
emits two labeled gauge samples, and the first malformed string stops
the loop with an error, keeping the samples already emitted. -/
def decodeServers : List String → List Metric × Option Err
  | [] => ([], none)
  | str :: rest =>
    match goFields str with
    | [srv, qs, fs] =>
      match goParseFloat qs with
      | none => ([], some "ParseFloat: invalid syntax")
      | some queries =>
        match goParseFloat fs with
        | none => ([], some "ParseFloat: invalid syntax")
        | some failedQueries =>
          let emitted : List Metric :=
            [{ desc := serversMetricsQueries, vtype := .gaugeValue,
               value := queries, labelValues := [srv] },
             { desc := serversMetricsQueriesFailed, vtype := .gaugeValue,
               value := failedQueries, labelValues := [srv] }]
          let r := decodeServers rest
          (emitted ++ r.1, r.2)
    | _ =>
      ([], some "stats DNS record servers.bind.: unexpeced number of argument in record")

/-- One iteration of the answer loop of `queryDnsmasq`: non-TXT records
are skipped; a TXT record named `servers.bind.` goes through
`decodeServers`; a TXT record with one of the six scalar names must
carry exactly one string, parsed as a float and emitted as an unlabeled
gauge; any other TXT name is silently ignored. -/
def decodeAnswer (a : RR) : List Metric × Option Err :=
  match a with
  | .other => ([], none)
  | .txt name strs =>
    if name = "servers.bind." then
      decodeServers strs
    else
      match floatMetrics name with
      | none => ([], none)
      | some g =>
        match strs with
        | [s] =>
          match goParseFloat s with
          | none => ([], some "ParseFloat: invalid syntax")
          | some f =>
            ([{ desc := g, vtype := .gaugeValue, value := f, labelValues := [] }],
             none)
        | _ => ([], some "stats DNS record: unexpected number of replies")

/-- The answer loop of `queryDnsmasq`: answers are decoded in reply
order; metrics are sent on the channel as they are decoded; the first
error stops the loop, keeping everything already sent. -/
def decodeAnswers : List RR → List Metric × Option Err
  | [] => ([], none)
  | a :: rest =>
    let r := decodeAnswer a
    match r.2 with
    | some e => (r.1, some e)
    | none =>
      let r2 := decodeAnswers rest
      (r.1 ++ r2.1, r2.2)

/-- The body of `queryDnsmasq` after the exchange: a transport error is
returned as-is with nothing emitted; otherwise the reply's answers are
decoded. The exchange itself is an oracle value (`exch`). -/
def queryDnsmasq (exch : Except Err DnsReply) : List Metric × Option Err :=
  match exch with
  | .error e => ([], some e)
  | .ok reply => decodeAnswers reply.answer

/-- The request `queryDnsmasq` builds for a statistics name: a fresh
transaction id, recursion desired, and the single CHAOS/TXT question. -/
def buildMsg (id : Nat) (name : String) : Msg :=
  { hdr := { id := id, recursionDesired := true }, question := [question name] }

/-- The fixed, ordered list `questionBinds` from `Collector.Collect`. -/
def questionBinds : List String :=
  ["cachesize.bind.", "insertions.bind.", "evictions.bind.",
   "misses.bind.", "hits.bind.", "auth.bind.", "servers.bind."]

/-- The requests built for a run of the loop over `names`, with `ids k`
the transaction id `dns.Id()` returns for the k-th exchange (counting
from `k0`). -/
def builtMsgs (ids : Nat → Nat) : Nat → List String → List Msg
  | _, [] => []
  | k, q :: rest => buildMsg (ids k) q :: builtMsgs ids (k + 1) rest

/-- The loop of the stats goroutine in `Collector.Collect`, generalized
over the remaining names: for each name in order, build and send one
request, decode the reply, and stop at the first error.  `ids` supplies
the random transaction ids and `net` is the network oracle giving the
exchange result for each statistics name.  Returns the requests sent,
the metrics emitted on the channel, and the error, if any. -/
def statsLoop (ids : Nat → Nat) (net : String → Except Err DnsReply) :
    Nat → List String → List Msg × List Metric × Option Err
  | _, [] => ([], [], none)
  | k, q :: rest =>
    let msg := buildMsg (ids k) q
    let r := queryDnsmasq (net q)
    match r.2 with
    | some e => ([msg], r.1, some e)
    | none =>
      let r2 := statsLoop ids net (k + 1) rest
      (msg :: r2.1, r.1 ++ r2.2.1, r2.2.2)

/-- The whole stats goroutine of `Collector.Collect`. -/
def runStats (ids : Nat → Nat) (net : String → Except Err DnsReply) :
    List Msg × List Metric × Option Err :=
  statsLoop ids net 0 questionBinds

/-! ### The lease-file parser (`parseLease`, `readLeaseFile`) -/

/-- The `lease` struct. -/
structure lease where
  expiry : Nat
  macAddress : String
  ipAddress : String
  computerName : String
  clientId : String
deriving DecidableEq, Repr

/-- `parseLease`: a lease line must have exactly five whitespace-
separated fields, the first of which parses as an unsigned 64-bit
decimal integer. -/
def parseLease (line : String) : Except Err lease :=
  match goFields line with
  | [e, mac, ip, name, cid] =>
    match goParseUint64 e with
    | none => .error "ParseUint: invalid syntax"
    | some expires =>
      .ok { expiry := expires, macAddress := mac, ipAddress := ip,
            computerName := name, clientId := cid }
  | _ => .error "illegal lease: expected 5 fields"

/-- What the file system hands `readLeaseFile` for its path:
`notFound` is an open error satisfying `os.IsNotExist`; `openError` is
any other open failure; `content lines readError` is a successful open
where `lines` are the lines the scanner delivers before `readError`
(if some) stops it. -/
inductive FileResult where
  | notFound
  | openError (e : Err)
  | content (lines : List String) (readError : Option Err)
deriving DecidableEq, Repr

/-- The scan loop of `readLeaseFile`: each line is parsed independently;
a line `parseLease` rejects is skipped and parsing continues. -/
def scanLeases (lines : List String) : List lease :=
  lines.filterMap (fun line => (parseLease line).toOption)

/-- The diagnostics `readLeaseFile` logs, one `log.Printf` per line that
fails to parse (modelled as the list of offending lines, in order). -/
def leaseDiagnostics (lines : List String) : List String :=
  lines.filter (fun line =>
    match parseLease line with
    | .ok _ => false
    | .error _ => true)

/-- `readLeaseFile`: a missing file is an empty lease list, any other
open error propagates, otherwise every scanned line is parsed (bad
lines skipped) and a scanner read error propagates after the loop. -/
def readLeaseFile (file : FileResult) : Except Err (List lease) :=
  match file with
  | .notFound => .ok []
  | .openError e => .error e
  | .content lines readError =>
    let activeLeases := scanLeases lines
    match readError with
    | some e => .error e
    | none => .ok activeLeases

/-! ### The Collector -/

/-- `Config` (the `DnsClient` handle is replaced by the network oracle
passed to `Collect`). -/
structure Config where
  dnsmasqAddr : String
  leasesPath : String
  exposeLeases : Bool
deriving DecidableEq, Repr

/-- The metric `MustNewConstMetric(leases, GaugeValue, n)`. -/
def leaseCountMetric (n : Nat) : Metric :=
  { desc := leases, vtype := .gaugeValue, value := (n : ℚ), labelValues := [] }

/-- The metric `MustNewConstMetric(leaseMetrics, GaugeValue, expiry,
mac, ip, name, clientId)` for one lease. -/
def leaseExpiryMetric (l : lease) : Metric :=
  { desc := leaseMetrics, vtype := .gaugeValue, value := (l.expiry : ℚ),
    labelValues := [l.macAddress, l.ipAddress, l.computerName, l.clientId] }

/-- The lease goroutine of `Collector.Collect`: read the lease file
(propagating its error, with nothing emitted), emit the lease count,
and, only when `ExposeLeases` is set, one expiry gauge per lease. -/
def leaseSubtask (cfg : Config) (file : FileResult) : List Metric × Option Err :=
  match readLeaseFile file with
  | .error e => ([], some e)
  | .ok activeLeases =>
    let countM := leaseCountMetric activeLeases.length
    if cfg.exposeLeases then
      (countM :: activeLeases.map leaseExpiryMetric, none)
    else
      ([countM], none)

/-- The outcome of one `Collect` call.  The channel contents are kept
per goroutine (`statsMetrics`, `leaseMetrics'`): the two goroutines
interleave their sends nondeterministically and no cross-goroutine
order is modelled.  `statsErr` and `leaseErr` are the goroutines'
return values; `eg.Wait()` hands the first of them that occurred to
`log.Printf` and `Collect` itself returns nothing. -/
structure CollectResult where
  requests : List Msg
  statsMetrics : List Metric
  leaseMetrics' : List Metric
  statsErr : Option Err
  leaseErr : Option Err
deriving Repr

/-- `Collector.Collect`: run both goroutines to completion, join, and
log (never propagate) any error.  Its Lean type already expresses the
failure policy: there is no error in the result beyond the two logged
fields, and both goroutines' emitted metrics are always delivered. -/
def Collect (cfg : Config) (ids : Nat → Nat)
    (net : String → Except Err DnsReply) (file : FileResult) : CollectResult :=
  let s := runStats ids net
  let l := leaseSubtask cfg file
  { requests := s.1, statsMetrics := s.2.1, leaseMetrics' := l.1,
    statsErr := s.2.2, leaseErr := l.2 }

/-- The errors `eg.Wait()` can surface to `log.Printf`: the subtask
errors that occurred (which of them `Wait` returns depends on timing,
so both are recorded). -/
def loggedErrors (r : CollectResult) : List Err :=
  r.statsErr.toList ++ r.leaseErr.toList

/-! ### Statement-side helper definitions -/

/-- Well-formedness of one `servers.bind.` text string, as the decoder
checks it: exactly three fields, the last two numeric. -/
def serverStrOk (s : String) : Bool :=
  match goFields s with
  | [_, qs, fs] => (goParseFloat qs).isSome && (goParseFloat fs).isSome
  | _ => false

/-- The two samples one well-formed `servers.bind.` text string yields. -/
def serverStrMetrics (s : String) : List Metric :=
  match goFields s with
  | [srv, qs, fs] =>
    match goParseFloat qs, goParseFloat fs with
    | some q, some f =>
      [{ desc := serversMetricsQueries, vtype := .gaugeValue,
         value := q, labelValues := [srv] },
       { desc := serversMetricsQueriesFailed, vtype := .gaugeValue,
         value := f, labelValues := [srv] }]
    | _, _ => []
  | _ => []

/-- The answers carried by an exchange result (none on transport error). -/
def answersOf (exch : Except Err DnsReply) : List RR :=
  match exch with
  | .error _ => []
  | .ok reply => reply.answer

/-- Whether an answer record is anything but a `servers.bind.` TXT
record. -/
def notServersRR (a : RR) : Bool :=
  match a with
  | .txt n _ => n ≠ "servers.bind."
  | .other => true

/-- A network oracle whose every exchange succeeds with an empty answer
section. -/
def netOkEmpty : String → Except Err DnsReply :=
  fun _ => .ok { answer := [] }

/-- A network oracle whose every exchange fails with a transport error. -/
def netFail : String → Except Err DnsReply :=
  fun _ => .error "connection refused"

/-- A network oracle for which the cache-size exchange decodes and the
insertions exchange carries a non-numeric scalar answer. -/
def netScalarError : String → Except Err DnsReply := fun q =>
  if q = "cachesize.bind." then
    .ok { answer := [RR.txt "cachesize.bind." ["666"]] }
  else if q = "insertions.bind." then
    .ok { answer := [RR.txt "insertions.bind." ["bogus"]] }
  else
    .ok { answer := [] }

/-- A sample configuration with per-lease metrics disabled. -/
def cfgNoExpose : Config :=
  { dnsmasqAddr := "localhost:53", leasesPath := "/var/lib/misc/dnsmasq.leases",
    exposeLeases := false }

/-- A sample configuration with per-lease metrics enabled. -/
def cfgExpose : Config :=
  { dnsmasqAddr := "localhost:53", leasesPath := "/var/lib/misc/dnsmasq.leases",
    exposeLeases := true }

/-! ### Shared lemmas -/

/-- A name with a scalar descriptor is not the per-server name. -/
theorem floatMetrics_ne_servers {name : String} {g : Desc}
    (h : floatMetrics name = some g) : name ≠ "servers.bind." := by
  intro he
  rw [he] at h
  have h0 : floatMetrics "servers.bind." = none := by decide
  rw [h0] at h
  exact Option.noConfusion h

/-- Scalar descriptors are distinct from the two per-server descriptors. -/
theorem floatMetrics_desc_ne_servers {name : String} {g : Desc}
    (h : floatMetrics name = some g) :
    g ≠ serversMetricsQueries ∧ g ≠ serversMetricsQueriesFailed := by
  unfold floatMetrics at h
  split_ifs at h <;> cases h <;> exact ⟨by decide, by decide⟩

/-- Unfolding lemma: decoding a cons of answers decodes the head, stops
on its error, and otherwise continues with the tail. -/
theorem decodeAnswers_cons (a : RR) (rest : List RR) :
    decodeAnswers (a :: rest) =
      match (decodeAnswer a).2 with
      | some e => ((decodeAnswer a).1, some e)
      | none =>
        ((decodeAnswer a).1 ++ (decodeAnswers rest).1, (decodeAnswers rest).2) := by
  rfl

/-- C2: the stats decoder processes answers in reply order, every value
decoded before a failure stays delivered, and the error (if any) of the
whole reply is that of its first failing suffix. -/
theorem c2_decode_as_far_as_possible (xs ys : List RR)
    (h : (decodeAnswers xs).2 = none) :
    queryDnsmasq (.ok { answer := xs ++ ys }) =
      ((decodeAnswers xs).1 ++ (decodeAnswers ys).1, (decodeAnswers ys).2) := by
  show decodeAnswers (xs ++ ys) = _
  induction xs with
  | nil => simp [decodeAnswers]
  | cons a rest ih =>
    rw [decodeAnswers_cons] at h
    rw [List.cons_append, decodeAnswers_cons, decodeAnswers_cons]
    cases ha : (decodeAnswer a).2 with
    | some e => rw [ha] at h; exact absurd h (by simp)
    | none =>
      rw [ha] at h
      simp only [ha]
      rw [ih h]
      simp [List.append_assoc]

/-- Witness for C2: a decoded cache-size gauge survives a later
malformed per-server answer in the same reply. -/
theorem c2_witness :
    queryDnsmasq (.ok { answer := [RR.txt "cachesize.bind." ["666"],
                                   RR.txt "servers.bind." ["a 1"]] }) =
      ((decodeAnswers [RR.txt "cachesize.bind." ["666"]]).1 ++
        (decodeAnswers [RR.txt "servers.bind." ["a 1"]]).1,
       (decodeAnswers [RR.txt "servers.bind." ["a 1"]]).2) :=
  c2_decode_as_far_as_possible [RR.txt "cachesize.bind." ["666"]]
    [RR.txt "servers.bind." ["a 1"]] (by decide)

/-- C4: a scalar-named TXT answer with a single numeric string yields
exactly the corresponding unlabeled gauge with the parsed value; a
non-numeric string or a string count other than one aborts with an
error; a TXT answer with an unknown name is silently skipped. -/
theorem c4_scalar_answers :
    (∀ name g s v, floatMetrics name = some g → goParseFloat s = some v →
      decodeAnswer (.txt name [s]) =
        ([{ desc := g, vtype := .gaugeValue, value := v, labelValues := [] }],
         none)) ∧
    (∀ name g s, floatMetrics name = some g → goParseFloat s = none →
      decodeAnswer (.txt name [s]) =
        ([], some "ParseFloat: invalid syntax")) ∧
    (∀ name g strs, floatMetrics name = some g → strs.length ≠ 1 →
      decodeAnswer (.txt name strs) =
        ([], some "stats DNS record: unexpected number of replies")) ∧
    (∀ name strs, floatMetrics name = none → name ≠ "servers.bind." →
      decodeAnswer (.txt name strs) = ([], none)) := by
  refine ⟨?_, ?_, ?_, ?_⟩
  · intro name g s v hg hv
    simp only [decodeAnswer, if_neg (floatMetrics_ne_servers hg), hg, hv]
  · intro name g s hg hv
    simp only [decodeAnswer, if_neg (floatMetrics_ne_servers hg), hg, hv]
  · intro name g strs hg hlen
    simp only [decodeAnswer, if_neg (floatMetrics_ne_servers hg), hg]
    match strs, hlen with
    | [], _ => rfl
    | [s], h1 => exact absurd rfl h1
    | s :: t :: r, _ => rfl
  · intro name strs hg hne
    simp only [decodeAnswer, if_neg hne, hg]

/-- Witness for C4: the cache-size answer `"666"` yields the unlabeled
`dnsmasq_cachesize` gauge with value 666; a non-numeric string, a
two-string answer, and an unknown name behave as stated. -/
theorem c4_scalar_answers_witness :
    decodeAnswer (.txt "cachesize.bind." ["666"]) =
      ([{ desc := { fqName := "dnsmasq_cachesize",
                    help := "configured size of the DNS cache",
                    variableLabels := [] },
          vtype := .gaugeValue, value := 666, labelValues := [] }], none) ∧
    decodeAnswer (.txt "hits.bind." ["bogus"]) =
      ([], some "ParseFloat: invalid syntax") ∧
    decodeAnswer (.txt "auth.bind." ["1", "2"]) =
      ([], some "stats DNS record: unexpected number of replies") ∧
    decodeAnswer (.txt "version.bind." ["2.80"]) = ([], none) :=
  ⟨c4_scalar_answers.1 "cachesize.bind." _ "666" 666 (by decide) (by decide),
   c4_scalar_answers.2.1 "hits.bind."
     { fqName := "dnsmasq_hits",
       help := "DNS queries answered locally (cache hits)",
       variableLabels := [] } "bogus" (by decide) (by decide),
   c4_scalar_answers.2.2.1 "auth.bind."
     { fqName := "dnsmasq_auth",
       help := "DNS queries for authoritative zones",
       variableLabels := [] } ["1", "2"] (by decide) (by decide),
   c4_scalar_answers.2.2.2 "version.bind." ["2.80"] (by decide) (by decide)⟩

/-- Unfolding lemma for the per-server string loop. -/
theorem decodeServers_cons (s : String) (rest : List String) :
    decodeServers (s :: rest) =
      match goFields s with
      | [srv, qs, fs] =>
        match goParseFloat qs with
        | none => ([], some "ParseFloat: invalid syntax")
        | some queries =>
          match goParseFloat fs with
          | none => ([], some "ParseFloat: invalid syntax")
          | some failedQueries =>
            ([{ desc := serversMetricsQueries, vtype := .gaugeValue,
                value := queries, labelValues := [srv] },
              { desc := serversMetricsQueriesFailed, vtype := .gaugeValue,
                value := failedQueries, labelValues := [srv] }] ++
               (decodeServers rest).1,
             (decodeServers rest).2)
      | _ =>
        ([], some "stats DNS record servers.bind.: unexpeced number of argument in record") := by
  rfl

/-- C5: a well-formed per-server string (three fields, numeric counts)
yields exactly the two gauges labeled by its server address; an
all-well-formed answer yields exactly the concatenation of those pairs
with no error; and the per-server decode succeeds exactly when every
string is well-formed, so a bad field count or a bad number aborts with
an error. -/
theorem c5_per_server_answers :
    (∀ s srv qs fs q f, goFields s = [srv, qs, fs] →
      goParseFloat qs = some q → goParseFloat fs = some f →
      decodeServers [s] =
        ([{ desc := serversMetricsQueries, vtype := .gaugeValue,
            value := q, labelValues := [srv] },
          { desc := serversMetricsQueriesFailed, vtype := .gaugeValue,
            value := f, labelValues := [srv] }], none)) ∧
    (∀ strs, (∀ s ∈ strs, serverStrOk s = true) →
      decodeServers strs = ((strs.map serverStrMetrics).flatten, none)) ∧
    (∀ strs, (decodeServers strs).2 = none ↔ ∀ s ∈ strs, serverStrOk s = true) := by
  have hstep : ∀ s rest, serverStrOk s = true →
      decodeServers (s :: rest) =
        (serverStrMetrics s ++ (decodeServers rest).1, (decodeServers rest).2) := by
    intro s rest hok
    rw [decodeServers_cons]
    rcases hgf : goFields s with _ | ⟨srv, _ | ⟨qs, _ | ⟨fs, _ | ⟨d, tl⟩⟩⟩⟩ <;>
      simp [serverStrOk, hgf] at hok
    cases hq : goParseFloat qs with
    | none => rw [hq] at hok; simp at hok
    | some q =>
      cases hf : goParseFloat fs with
      | none => rw [hq, hf] at hok; simp at hok
      | some f => simp [serverStrMetrics, hgf, hq, hf]
  have hfail : ∀ s rest, serverStrOk s = false →
      (decodeServers (s :: rest)).2.isSome = true := by
    intro s rest hok
    rw [decodeServers_cons]
    rcases hgf : goFields s with _ | ⟨srv, _ | ⟨qs, _ | ⟨fs, _ | ⟨d, tl⟩⟩⟩⟩ <;>
      simp [serverStrOk, hgf] at hok ⊢
    cases hq : goParseFloat qs with
    | none => simp
    | some q =>
      cases hf : goParseFloat fs with
      | none => simp
      | some f =>
        rw [hq, hf] at hok
        simp at hok
  have hall : ∀ strs, (∀ s ∈ strs, serverStrOk s = true) →
      decodeServers strs = ((strs.map serverStrMetrics).flatten, none) := by
    intro strs h
    induction strs with
    | nil => rfl
    | cons s rest ih =>
      rw [hstep s rest (h s (by simp)), ih (fun t ht => h t (by simp [ht]))]
      simp
  refine ⟨?_, hall, ?_⟩
  · intro s srv qs fs q f hgf hq hf
    have hok : serverStrOk s = true := by
      simp [serverStrOk, hgf, hq, hf]
    rw [hstep s [] hok]
    simp [serverStrMetrics, hgf, hq, hf, decodeServers]
  · intro strs
    constructor
    · intro hnone s hs
      by_contra hbad
      rw [Bool.not_eq_true] at hbad
      induction strs with
      | nil => cases hs
      | cons a rest ih =>
        rcases List.mem_cons.mp hs with rfl | hmem
        · have h1 := hfail s rest hbad
          rw [hnone] at h1
          cases h1
        · cases hoka : serverStrOk a with
          | false =>
            have h1 := hfail a rest hoka
            rw [hnone] at h1
            cases h1
          | true =>
            have hrec : (decodeServers rest).2 = none := by
              have h1 := hstep a rest hoka
              rw [h1] at hnone
              exact hnone
            exact ih hrec hmem
    · intro h
      rw [hall strs h]


/-- Witness for C5: the string `"ns1.example 10 2"` yields the queries
gauge 10 and the failed-queries gauge 2 for label `ns1.example`, and a
one-string answer made of it decodes without error. -/
theorem c5_per_server_answers_witness :
    decodeServers ["ns1.example 10 2"] =
      ([{ desc := serversMetricsQueries, vtype := .gaugeValue,
          value := 10, labelValues := ["ns1.example"] },
        { desc := serversMetricsQueriesFailed, vtype := .gaugeValue,
          value := 2, labelValues := ["ns1.example"] }], none) ∧
    ((decodeServers ["ns1.example 10 2"]).2 = none ↔
      ∀ s ∈ ["ns1.example 10 2"], serverStrOk s = true) :=
  ⟨c5_per_server_answers.1 "ns1.example 10 2" "ns1.example" "10" "2" 10 2
     (by decide) (by decide) (by decide),
   c5_per_server_answers.2.2 ["ns1.example 10 2"]⟩

/-- C3: with a readable file, `readLeaseFile` returns exactly the
leases of the well-formed lines in file order; a line is malformed
exactly when its field count is not five or its first field is not an
unsigned 64-bit decimal; a well-formed line parses to the lease made of
its five fields; and every line is either parsed or diagnosed, so a bad
line never discards the rest of the file. -/
theorem c3_lease_lines :
    (∀ lines, readLeaseFile (.content lines none) =
      .ok (lines.filterMap (fun line => (parseLease line).toOption))) ∧
    (∀ line e mac ip name cid n,
      goFields line = [e, mac, ip, name, cid] → goParseUint64 e = some n →
      parseLease line = .ok { expiry := n, macAddress := mac, ipAddress := ip,
                              computerName := name, clientId := cid }) ∧
    (∀ line, (parseLease line).toOption = none ↔
      (goFields line).length ≠ 5 ∨ goParseUint64 ((goFields line).headD "") = none) ∧
    (∀ lines, (scanLeases lines).length + (leaseDiagnostics lines).length = lines.length) := by
  refine ⟨fun lines => rfl, ?_, ?_, ?_⟩
  · intro line e mac ip name cid n hgf hn
    simp [parseLease, hgf, hn]
  · intro line
    rcases hgf : goFields line with
        _ | ⟨a, _ | ⟨b, _ | ⟨c, _ | ⟨d, _ | ⟨e5, _ | ⟨f, tl⟩⟩⟩⟩⟩⟩ <;>
      simp [parseLease, hgf, Except.toOption]
    cases hn : goParseUint64 a <;> simp [Except.toOption]
  · intro lines
    induction lines with
    | nil => rfl
    | cons l rest ih =>
      cases hp : parseLease l with
      | ok v =>
        simp [scanLeases, leaseDiagnostics, hp, Except.toOption] at ih ⊢
        omega
      | error e =>
        simp [scanLeases, leaseDiagnostics, hp, Except.toOption] at ih ⊢
        omega

/-- Witness for C3: a file with two well-formed lines around one
malformed line yields exactly the two leases, and the well-formed line
`"1 a b c d"` parses to its five fields. -/
theorem c3_lease_lines_witness :
    readLeaseFile (.content ["1 a b c d", "oops", "2 e f g h"] none) =
      .ok [{ expiry := 1, macAddress := "a", ipAddress := "b",
             computerName := "c", clientId := "d" },
           { expiry := 2, macAddress := "e", ipAddress := "f",
             computerName := "g", clientId := "h" }] ∧
    parseLease "1 a b c d" =
      .ok { expiry := 1, macAddress := "a", ipAddress := "b",
            computerName := "c", clientId := "d" } :=
  ⟨(c3_lease_lines.1 ["1 a b c d", "oops", "2 e f g h"]).trans (by decide),
   c3_lease_lines.2.1 "1 a b c d" "1" "a" "b" "c" "d" 1 (by decide) (by decide)⟩

/-- C6: a missing lease file means zero active leases: `readLeaseFile`
returns an empty list without error, the lease subtask emits the leases
gauge with value 0 and no error, the whole scrape carries that gauge
with no lease-side error, and any open error other than not-found is
the subtask's error. -/
theorem c6_missing_lease_file :
    readLeaseFile .notFound = .ok [] ∧
    (∀ cfg, leaseSubtask cfg .notFound = ([leaseCountMetric 0], none)) ∧
    leaseCountMetric 0 =
      { desc := leases, vtype := .gaugeValue, value := 0, labelValues := [] } ∧
    (∀ e, readLeaseFile (.openError e) = .error e) ∧
    (∀ cfg ids net,
      (Collect cfg ids net .notFound).leaseErr = none ∧
      (Collect cfg ids net .notFound).leaseMetrics' = [leaseCountMetric 0]) := by
  have hsub : ∀ cfg, leaseSubtask cfg .notFound = ([leaseCountMetric 0], none) := by
    intro cfg
    cases hexp : cfg.exposeLeases <;>
      simp [leaseSubtask, readLeaseFile, hexp]
  refine ⟨rfl, hsub, by decide, fun e => rfl, ?_⟩
  intro cfg ids net
  constructor
  · show (leaseSubtask cfg .notFound).2 = none
    rw [hsub cfg]
  · show (leaseSubtask cfg .notFound).1 = [leaseCountMetric 0]
    rw [hsub cfg]

/-- Counterexample for C7: on a scrape whose lease file open fails with
an error other than not-found (here, a permission error), the lease
subtask emits no metric at all — in particular the leases-count gauge
is not delivered, so it is not delivered on every scrape. -/
theorem c7_counterexample :
    leaseSubtask cfgNoExpose (.openError "permission denied") =
      ([], some "permission denied") ∧
    ¬ ∃ m ∈ (leaseSubtask cfgNoExpose (.openError "permission denied")).1,
        m.desc = leases := by
  decide

/-- C7 (amended): whenever the lease file is read successfully —
including the absent-file case, which reads as an empty list — the
lease subtask emits the leases gauge first, with value the number of
successfully parsed leases, and reports no error; when the read fails
with an error other than not-found, the subtask emits nothing and
reports that error. -/
theorem c7_leases_gauge :
    (∀ cfg file ls, readLeaseFile file = .ok ls →
      (leaseSubtask cfg file).2 = none ∧
      (leaseSubtask cfg file).1.head? = some (leaseCountMetric ls.length)) ∧
    (∀ cfg file e, readLeaseFile file = .error e →
      leaseSubtask cfg file = ([], some e)) := by
  constructor
  · intro cfg file ls h
    cases hexp : cfg.exposeLeases <;>
      simp [leaseSubtask, h, hexp]
  · intro cfg file e h
    simp [leaseSubtask, h]

/-- Witness for C7 (amended): a two-line file yields the leases gauge
with value 2 at the head of the subtask's output, and a permission
error yields no metrics. -/
theorem c7_leases_gauge_witness :
    (leaseSubtask cfgNoExpose (.content ["1 a b c d", "2 e f g h"] none)).2 = none ∧
    (leaseSubtask cfgNoExpose (.content ["1 a b c d", "2 e f g h"] none)).1.head? =
      some (leaseCountMetric 2) ∧
    leaseSubtask cfgExpose (.openError "input/output error") =
      ([], some "input/output error") := by
  have h1 := c7_leases_gauge.1 cfgNoExpose (.content ["1 a b c d", "2 e f g h"] none)
    [{ expiry := 1, macAddress := "a", ipAddress := "b",
       computerName := "c", clientId := "d" },
     { expiry := 2, macAddress := "e", ipAddress := "f",
       computerName := "g", clientId := "h" }] (by decide)
  exact ⟨h1.1, h1.2, c7_leases_gauge.2 cfgExpose (.openError "input/output error")
    "input/output error" (by decide)⟩

/-- C8: for a successfully read lease file, enabling the expose-leases
option makes the subtask emit, after the count gauge, exactly one gauge
per parsed lease whose value is the expiry and whose label values are
the MAC address, IP address, computer name and client id; with the
option disabled only the count gauge is emitted and no metric uses the
per-lease descriptor. -/
theorem c8_expose_leases :
    ∀ cfg file ls, readLeaseFile file = .ok ls →
      (cfg.exposeLeases = true →
        leaseSubtask cfg file =
          (leaseCountMetric ls.length ::
            ls.map (fun l =>
              { desc := leaseMetrics, vtype := .gaugeValue,
                value := (l.expiry : ℚ),
                labelValues := [l.macAddress, l.ipAddress,
                                l.computerName, l.clientId] }),
           none)) ∧
      (cfg.exposeLeases = false →
        leaseSubtask cfg file = ([leaseCountMetric ls.length], none) ∧
        ∀ m ∈ (leaseSubtask cfg file).1, m.desc ≠ leaseMetrics) := by
  intro cfg file ls h
  constructor
  · intro hexp
    simp [leaseSubtask, h, hexp, leaseExpiryMetric]
  · intro hexp
    have heq : leaseSubtask cfg file = ([leaseCountMetric ls.length], none) := by
      simp [leaseSubtask, h, hexp]
    refine ⟨heq, ?_⟩
    rw [heq]
    intro m hm
    have hm2 : m = leaseCountMetric ls.length := List.mem_singleton.mp hm
    subst hm2
    have hne : leases ≠ leaseMetrics := by decide
    simpa [leaseCountMetric] using hne

/-- Witness for C8: with two parsed leases, the enabled option yields
the count gauge followed by the two labeled expiry gauges, and the
disabled option yields the count gauge alone. -/
theorem c8_expose_leases_witness :
    leaseSubtask cfgExpose (.content ["1 a b c d", "2 e f g h"] none) =
      (leaseCountMetric 2 ::
        [{ expiry := 1, macAddress := "a", ipAddress := "b",
           computerName := "c", clientId := "d" },
         { expiry := 2, macAddress := "e", ipAddress := "f",
           computerName := "g", clientId := "h" }].map (fun l =>
          { desc := leaseMetrics, vtype := .gaugeValue,
            value := ((lease.expiry l : Nat) : ℚ),
            labelValues := [l.macAddress, l.ipAddress,
                            l.computerName, l.clientId] }),
       none) ∧
    leaseSubtask cfgNoExpose (.content ["1 a b c d", "2 e f g h"] none) =
      ([leaseCountMetric 2], none) :=
  ⟨(c8_expose_leases cfgExpose (.content ["1 a b c d", "2 e f g h"] none)
      [{ expiry := 1, macAddress := "a", ipAddress := "b",
         computerName := "c", clientId := "d" },
       { expiry := 2, macAddress := "e", ipAddress := "f",
         computerName := "g", clientId := "h" }] (by decide)).1 rfl,
   ((c8_expose_leases cfgNoExpose (.content ["1 a b c d", "2 e f g h"] none)
      [{ expiry := 1, macAddress := "a", ipAddress := "b",
         computerName := "c", clientId := "d" },
       { expiry := 2, macAddress := "e", ipAddress := "f",
         computerName := "g", clientId := "h" }] (by decide)).2 rfl).1⟩

/-- C1: a scrape always joins both subtasks and delivers everything
each of them emitted, whatever the other did: the collected output
carries the stats subtask's full emission and the lease subtask's full
emission, the collector's result has no failure channel beyond the two
recorded subtask errors, and any subtask error ends up logged. -/
theorem c1_error_isolation :
    ∀ cfg ids net file,
      (Collect cfg ids net file).statsMetrics = (runStats ids net).2.1 ∧
      (Collect cfg ids net file).leaseMetrics' = (leaseSubtask cfg file).1 ∧
      (Collect cfg ids net file).statsErr = (runStats ids net).2.2 ∧
      (Collect cfg ids net file).leaseErr = (leaseSubtask cfg file).2 ∧
      (∀ e, (Collect cfg ids net file).statsErr = some e ∨
            (Collect cfg ids net file).leaseErr = some e →
        e ∈ loggedErrors (Collect cfg ids net file)) := by
  intro cfg ids net file
  refine ⟨rfl, rfl, rfl, rfl, ?_⟩
  intro e he
  rcases he with h | h <;> simp [loggedErrors, h]

/-- Witness for C1: with an unreachable daemon and a missing lease
file, the transport error is logged while the lease subtask's gauge is
still delivered. -/
theorem c1_error_isolation_witness :
    "connection refused" ∈
      loggedErrors (Collect cfgNoExpose (fun k => k) netFail .notFound) ∧
    (Collect cfgNoExpose (fun k => k) netFail .notFound).leaseMetrics' =
      (leaseSubtask cfgNoExpose .notFound).1 :=
  ⟨(c1_error_isolation cfgNoExpose (fun k => k) netFail .notFound).2.2.2.2
      "connection refused" (Or.inl (by decide)),
   (c1_error_isolation cfgNoExpose (fun k => k) netFail .notFound).2.1⟩

/-- Unfolding lemma for one iteration of the stats loop. -/
theorem statsLoop_cons (ids : Nat → Nat) (net : String → Except Err DnsReply)
    (k : Nat) (q : String) (rest : List String) :
    statsLoop ids net k (q :: rest) =
      match (queryDnsmasq (net q)).2 with
      | some e => ([buildMsg (ids k) q], (queryDnsmasq (net q)).1, some e)
      | none =>
        (buildMsg (ids k) q :: (statsLoop ids net (k + 1) rest).1,
         (queryDnsmasq (net q)).1 ++ (statsLoop ids net (k + 1) rest).2.1,
         (statsLoop ids net (k + 1) rest).2.2) := by
  rfl

/-- Splitting the stats loop after a prefix of error-free exchanges. -/
theorem statsLoop_append_ok (ids : Nat → Nat) (net : String → Except Err DnsReply) :
    ∀ xs k rest, (∀ x ∈ xs, (queryDnsmasq (net x)).2 = none) →
      statsLoop ids net k (xs ++ rest) =
        (builtMsgs ids k xs ++ (statsLoop ids net (k + xs.length) rest).1,
         (xs.map (fun x => (queryDnsmasq (net x)).1)).flatten ++
           (statsLoop ids net (k + xs.length) rest).2.1,
         (statsLoop ids net (k + xs.length) rest).2.2) := by
  intro xs
  induction xs with
  | nil => intro k rest h; simp [builtMsgs]
  | cons x xs ih =>
    intro k rest h
    have hx : (queryDnsmasq (net x)).2 = none := h x (by simp)
    have harith : k + (x :: xs).length = (k + 1) + xs.length := by
      simp [List.length_cons]; omega
    rw [List.cons_append, statsLoop_cons, hx, harith,
      ih (k + 1) rest (fun y hy => h y (by simp [hy]))]
    simp [builtMsgs]

/-- `builtMsgs` distributes over append, shifting the id index. -/
theorem builtMsgs_append (ids : Nat → Nat) :
    ∀ xs k ys, builtMsgs ids k (xs ++ ys) =
      builtMsgs ids k xs ++ builtMsgs ids (k + xs.length) ys := by
  intro xs
  induction xs with
  | nil => intro k ys; simp [builtMsgs]
  | cons x xs ih =>
    intro k ys
    have harith : k + (x :: xs).length = (k + 1) + xs.length := by
      simp [List.length_cons]; omega
    rw [List.cons_append, builtMsgs, builtMsgs, ih (k + 1) ys, harith]
    rfl

/-- Every request the stats loop sends is built for one of its names. -/
theorem statsLoop_requests_mem (ids : Nat → Nat)
    (net : String → Except Err DnsReply) :
    ∀ names k m, m ∈ (statsLoop ids net k names).1 →
      ∃ j q, q ∈ names ∧ m = buildMsg (ids j) q := by
  intro names
  induction names with
  | nil => intro k m hm; cases hm
  | cons q rest ih =>
    intro k m hm
    rw [statsLoop_cons] at hm
    cases h2 : (queryDnsmasq (net q)).2 with
    | some e =>
      rw [h2] at hm
      simp only [List.mem_singleton] at hm
      exact ⟨k, q, by simp, hm⟩
    | none =>
      rw [h2] at hm
      rcases List.mem_cons.mp hm with rfl | hmem
      · exact ⟨k, q, by simp, rfl⟩
      · rcases ih (k + 1) m hmem with ⟨j, q2, hq2, hm2⟩
        exact ⟨j, q2, by simp [hq2], hm2⟩

/-- On an error-free run, the stats loop sends one request per name. -/
theorem statsLoop_requests_ok (ids : Nat → Nat)
    (net : String → Except Err DnsReply) :
    ∀ names k, (statsLoop ids net k names).2.2 = none →
      (statsLoop ids net k names).1 = builtMsgs ids k names := by
  intro names
  induction names with
  | nil => intro k h; rfl
  | cons q rest ih =>
    intro k h
    rw [statsLoop_cons] at h ⊢
    cases h2 : (queryDnsmasq (net q)).2 with
    | some e => rw [h2] at h; exact absurd h (by simp)
    | none =>
      rw [h2] at h
      have h3 : (statsLoop ids net (k + 1) rest).2.2 = none := h
      show buildMsg (ids k) q :: (statsLoop ids net (k + 1) rest).1 =
        builtMsgs ids k (q :: rest)
      rw [builtMsgs, ih (k + 1) h3]

/-- C9 (amended): the stats subtask sends its requests one per
statistics name in the fixed order, each a fresh-id message with
recursion desired and a single CHAOS-class TXT question for that name;
on an error-free scrape, exactly the seven requests are sent. -/
theorem c9_stats_requests :
    ∀ ids net,
      (∀ m ∈ (runStats ids net).1, m.hdr.recursionDesired = true ∧
        ∃ q, m.question = [q] ∧ q.qtype = TypeTXT ∧ q.qclass = ClassCHAOS ∧
          q.name ∈ questionBinds) ∧
      ((runStats ids net).2.2 = none →
        (runStats ids net).1 =
          [buildMsg (ids 0) "cachesize.bind.", buildMsg (ids 1) "insertions.bind.",
           buildMsg (ids 2) "evictions.bind.", buildMsg (ids 3) "misses.bind.",
           buildMsg (ids 4) "hits.bind.", buildMsg (ids 5) "auth.bind.",
           buildMsg (ids 6) "servers.bind."]) := by
  intro ids net
  constructor
  · intro m hm
    rcases statsLoop_requests_mem ids net questionBinds 0 m hm with ⟨j, q, hq, rfl⟩
    exact ⟨rfl, question q, rfl, rfl, rfl, hq⟩
  · intro h
    rw [show (runStats ids net).1 = (statsLoop ids net 0 questionBinds).1 from rfl,
      statsLoop_requests_ok ids net questionBinds 0 h]
    rfl

/-- Witness for C9 (amended): against a daemon answering every exchange
with an empty reply, the seven requests go out in order. -/
theorem c9_stats_requests_witness :
    (runStats (fun k => k) netOkEmpty).1 =
      [buildMsg 0 "cachesize.bind.", buildMsg 1 "insertions.bind.",
       buildMsg 2 "evictions.bind.", buildMsg 3 "misses.bind.",
       buildMsg 4 "hits.bind.", buildMsg 5 "auth.bind.",
       buildMsg 6 "servers.bind."] :=
  (c9_stats_requests (fun k => k) netOkEmpty).2 (by decide)

/-- Counterexample for C9: the statistics are fetched with seven
requests — not a single request — and every request sent carries
exactly one question entry, not seven. -/
theorem c9_single_request_counterexample :
    ((runStats (fun k => k) netOkEmpty).1).length = 7 ∧
    ((runStats (fun k => k) netOkEmpty).1).length ≠ 1 ∧
    ∀ m ∈ (runStats (fun k => k) netOkEmpty).1, m.question.length = 1 := by
  decide

/-- Decoding one answer that is not a `servers.bind.` TXT record never
produces a per-server metric. -/
theorem decodeAnswer_no_servers (a : RR) (h : notServersRR a = true) :
    ∀ m ∈ (decodeAnswer a).1,
      m.desc ≠ serversMetricsQueries ∧ m.desc ≠ serversMetricsQueriesFailed := by
  intro m hm
  cases a with
  | other => cases hm
  | txt n strs =>
    have hne : n ≠ "servers.bind." := by
      simpa [notServersRR] using h
    simp only [decodeAnswer, if_neg hne] at hm
    cases hg : floatMetrics n with
    | none => rw [hg] at hm; simp at hm
    | some g =>
      rw [hg] at hm
      rcases strs with _ | ⟨s, _ | ⟨t, r⟩⟩
      · simp at hm
      · cases hp : goParseFloat s with
        | none => simp [hp] at hm
        | some v =>
          simp [hp] at hm
          rw [hm]
          exact floatMetrics_desc_ne_servers hg
      · simp at hm

/-- Decoding a reply none of whose answers is a `servers.bind.` TXT
record never produces a per-server metric. -/
theorem decodeAnswers_no_servers :
    ∀ answers, (∀ a ∈ answers, notServersRR a = true) →
      ∀ m ∈ (decodeAnswers answers).1,
        m.desc ≠ serversMetricsQueries ∧ m.desc ≠ serversMetricsQueriesFailed := by
  intro answers
  induction answers with
  | nil => intro h m hm; cases hm
  | cons a rest ih =>
    intro h m hm
    rw [decodeAnswers_cons] at hm
    cases h2 : (decodeAnswer a).2 with
    | some e =>
      rw [h2] at hm
      have hm2 : m ∈ (decodeAnswer a).1 := hm
      exact decodeAnswer_no_servers a (h a (by simp)) m hm2
    | none =>
      rw [h2] at hm
      have hm2 : m ∈ (decodeAnswer a).1 ++ (decodeAnswers rest).1 := hm
      rcases List.mem_append.mp hm2 with h3 | h3
      · exact decodeAnswer_no_servers a (h a (by simp)) m h3
      · exact ih (fun b hb => h b (by simp [hb])) m h3

/-- An exchange whose reply has no `servers.bind.` TXT answer never
produces a per-server metric. -/
theorem queryDnsmasq_no_servers (exch : Except Err DnsReply)
    (h : ∀ a ∈ answersOf exch, notServersRR a = true) :
    ∀ m ∈ (queryDnsmasq exch).1,
      m.desc ≠ serversMetricsQueries ∧ m.desc ≠ serversMetricsQueriesFailed := by
  cases exch with
  | error e => intro m hm; cases hm
  | ok reply => exact decodeAnswers_no_servers reply.answer h

/-- C10: the stats subtask works through the seven names in their fixed
order, one exchange per name, and stops at the first error: if the
names split as an error-free prefix `xs` followed by a failing name
`q`, then exactly the requests for `xs ++ [q]` are sent, the metrics
delivered are those of the `xs` exchanges plus the failing exchange's
partial output, the subtask's error is that of `q`, and — when each
completed exchange's reply only carries answers for its own (non
per-server) name — no per-server metric appears in the scrape. -/
theorem c10_stats_fixed_order_stop :
    ∀ ids net xs q ys ms e,
      questionBinds = xs ++ q :: ys →
      (∀ x ∈ xs, (queryDnsmasq (net x)).2 = none) →
      queryDnsmasq (net q) = (ms, some e) →
      (runStats ids net).1 = builtMsgs ids 0 (xs ++ [q]) ∧
      (runStats ids net).2.1 =
        (xs.map (fun x => (queryDnsmasq (net x)).1)).flatten ++ ms ∧
      (runStats ids net).2.2 = some e ∧
      ((∀ x ∈ xs ++ [q], ∀ a ∈ answersOf (net x), notServersRR a = true) →
        ∀ m ∈ (runStats ids net).2.1,
          m.desc ≠ serversMetricsQueries ∧ m.desc ≠ serversMetricsQueriesFailed) := by
  intro ids net xs q ys ms e hqb hok herr
  have hsplit := statsLoop_append_ok ids net xs 0 (q :: ys) hok
  have hcons := statsLoop_cons ids net (0 + xs.length) q ys
  rw [herr] at hcons
  have hcons2 : statsLoop ids net (0 + xs.length) (q :: ys) =
      ([buildMsg (ids (0 + xs.length)) q], ms, some e) := hcons
  have hrun : runStats ids net = statsLoop ids net 0 questionBinds := rfl
  rw [hqb, hsplit, hcons2] at hrun
  refine ⟨?_, ?_, ?_, ?_⟩
  · rw [hrun]
    show builtMsgs ids 0 xs ++ [buildMsg (ids (0 + xs.length)) q] = _
    rw [builtMsgs_append]
    rfl
  · rw [hrun]
  · rw [hrun]
  · intro hnames m hm
    rw [hrun] at hm
    have hm2 : m ∈ (xs.map (fun x => (queryDnsmasq (net x)).1)).flatten ++ ms := hm
    rcases List.mem_append.mp hm2 with h3 | h3
    · rcases List.mem_flatten.mp h3 with ⟨l, hl, hml⟩
      rcases List.mem_map.mp hl with ⟨x, hx, rfl⟩
      exact queryDnsmasq_no_servers (net x)
        (hnames x (List.mem_append_left _ hx)) m hml
    · have hmq : m ∈ (queryDnsmasq (net q)).1 := by rw [herr]; exact h3
      exact queryDnsmasq_no_servers (net q)
        (hnames q (List.mem_append_right _ (by simp))) m hmq

/-- Witness for C10: with the cache-size exchange succeeding and the
insertions exchange failing to decode, exactly the first two requests
go out, the error is the decode error, and no per-server metric
appears. -/
theorem c10_stats_fixed_order_stop_witness :
    (runStats (fun k => k) netScalarError).1 =
      builtMsgs (fun k => k) 0 (["cachesize.bind."] ++ ["insertions.bind."]) ∧
    (runStats (fun k => k) netScalarError).2.2 =
      some "ParseFloat: invalid syntax" ∧
    ∀ m ∈ (runStats (fun k => k) netScalarError).2.1,
      m.desc ≠ serversMetricsQueries ∧ m.desc ≠ serversMetricsQueriesFailed := by
  have h := c10_stats_fixed_order_stop (fun k => k) netScalarError
    ["cachesize.bind."] "insertions.bind."
    ["evictions.bind.", "misses.bind.", "hits.bind.", "auth.bind.", "servers.bind."]
    [] "ParseFloat: invalid syntax" (by decide) (by decide) (by decide)
  exact ⟨h.1, h.2.2.1, h.2.2.2 (by decide)⟩

end DnsmasqExporter
